import Mathlib

/-!
# PetMatch: the event handlers of `src/App.jsx` and the start-up of `src/supabaseClient.js`

The handlers are embedded as pure functions from the outcome of every external call
(Data Store, Generation Service, HTTP) to the list of effects the handler performs, in
program order: state setters, outgoing requests and the blocking alert.  The display
state after a handler is obtained by replaying the setters over the state before it.
-/

namespace PetMatch

/-! ## JavaScript values -/

/-- JavaScript values that reach the handlers: parsed JSON, thrown error objects and
`undefined`.  A Number is carried as its `Number::toString` rendering (the shortest
round-trip digit algorithm itself is outside the embedding).  An object is the list of
its own properties in property order; property names are pairwise distinct, as in
JavaScript.  An `error` is an instance of `Error` or of a subclass: `name` is the name
its prototype chain supplies (`Error`, `TypeError`, ...) and `ps` its own properties, of
which `message`, `stack` and `cause` are the non-enumerable ones the constructor and the
engine create; an instance without own `message` inherits the message `''`. -/
inductive JSVal where
  | undefined
  | null
  | bool (b : Bool)
  | num (lit : String)
  | str (s : String)
  | arr (xs : List JSVal)
  | obj (ps : List (String × JSVal))
  | error (name : String) (ps : List (String × JSVal))

/-- ToBoolean: `undefined`, `null`, `false`, `0`, `NaN` and `''` are falsy. -/
def truthy : JSVal → Bool
  | .undefined => false
  | .null => false
  | .bool b => b
  | .num lit => !(lit == "0" || lit == "NaN")
  | .str s => !(s == "")
  | .arr _ => true
  | .obj _ => true
  | .error _ _ => true

/-- The operator `a || b`. -/
def jsOr (a b : JSVal) : JSVal :=
  if truthy a then a else b

/-- Method `String.prototype.includes`: `sub` occurs somewhere in `s`. -/
def includes (s sub : String) : Bool :=
  s.data.tails.any (fun t => sub.data.isPrefixOf t)

/-- Test `typeof v === 'string' && v.includes(sub)`. -/
def isStringIncluding (sub : String) : JSVal → Bool
  | .str s => includes s sub
  | _ => false

/-- Property read `v.k` on a value that is neither `undefined` nor `null`, for a name `k`
that is not `length` or an index (the handlers read `message`, `models`, `name` and
`supportedGenerationMethods`): objects give the own property or `undefined`, primitives
and arrays give `undefined`, and an Error instance gives its own property or else what
it inherits: the message `''` and the name of its class. -/
def member (k : String) : JSVal → JSVal
  | .obj ps => (ps.lookup k).getD .undefined
  | .error name ps =>
    match ps.lookup k with
    | some v => v
    | none =>
      if k == "message" then .str "" else if k == "name" then .str name else .undefined
  | _ => .undefined

/-- Optional chaining `v?.k`. -/
def optMember (k : String) : JSVal → JSVal
  | .undefined => .undefined
  | .null => .undefined
  | v => member k v

/-- The closing steps of `Error.prototype.toString`: `own` holds, for each own property
that is not `undefined`, its ToString. -/
def errorToString (name : String) (own : List (String × Option String)) : String :=
  let n :=
    match own.lookup "name" with
    | none => name
    | some none => "Error"
    | some (some t) => t
  let msg :=
    match own.lookup "message" with
    | none => ""
    | some none => ""
    | some (some t) => t
  if n == "" then msg else if msg == "" then n else n ++ ": " ++ msg

mutual
/-- ToString, as applied by template literals, by `'text' + v` and by `alert`. -/
def toStr : JSVal → String
  | .undefined => "undefined"
  | .null => "null"
  | .bool b => if b then "true" else "false"
  | .num lit => lit
  | .str s => s
  | .arr xs => ",".intercalate (joinItems xs)
  | .obj _ => "[object Object]"
  | .error name ps => errorToString name (toStrProps ps)
/-- The pieces `Array.prototype.join` concatenates: `undefined` and `null` elements give
the empty string, every other element its ToString. -/
def joinItems : List JSVal → List String
  | [] => []
  | .undefined :: xs => "" :: joinItems xs
  | .null :: xs => "" :: joinItems xs
  | x :: xs => toStr x :: joinItems xs
/-- The own properties of an Error instance with the ToString of each value; `none` for
a value that is `undefined`. -/
def toStrProps : List (String × JSVal) → List (String × Option String)
  | [] => []
  | (k, .undefined) :: ps => (k, none) :: toStrProps ps
  | (k, v) :: ps => (k, some (toStr v)) :: toStrProps ps
end

/-- Method `Array.prototype.join(sep)` on the elements `xs`. -/
def join (sep : String) (xs : List JSVal) : String :=
  sep.intercalate (joinItems xs)

/-- A string interpolated into a template literal when it may be `undefined`. -/
def templ (o : Option String) : String :=
  o.getD "undefined"

/-! ## JSON.stringify -/

/-- One lower-case hexadecimal digit. -/
def hexDigit (n : Nat) : Char :=
  if n < 10 then Char.ofNat (48 + n) else Char.ofNat (87 + n)

/-- QuoteJSONString on one code point. -/
def quoteChar (c : Char) : String :=
  if c.toNat = 8 then "\\b"
  else if c.toNat = 9 then "\\t"
  else if c.toNat = 10 then "\\n"
  else if c.toNat = 12 then "\\f"
  else if c.toNat = 13 then "\\r"
  else if c.toNat = 34 then "\\\""
  else if c.toNat = 92 then "\\\\"
  else if c.toNat < 32 then
    "\\u00" ++ String.mk [hexDigit (c.toNat / 16), hexDigit (c.toNat % 16)]
  else String.mk [c]

/-- QuoteJSONString. -/
def quote (s : String) : String :=
  "\"" ++ String.join (s.data.map quoteChar) ++ "\""

/-- The closing steps of SerializeJSONObject and SerializeJSONArray: `stepback` is the
indentation outside the brackets, `gap` the indentation unit. -/
def wrapJSON (opening closing gap stepback : String) (items : List String) : String :=
  if items.isEmpty then opening ++ closing
  else if gap == "" then opening ++ ",".intercalate items ++ closing
  else
    opening ++ "\n" ++ (stepback ++ gap)
      ++ (",\n" ++ (stepback ++ gap)).intercalate items ++ "\n" ++ stepback ++ closing

/-- The members of SerializeJSONObject: for each name of the property list (the replacer
array when there is one, else the own names) whose value serialises, the quoted name, a
colon, a space when indenting, and the serialised value. -/
def memberLines (allow : Option (List String)) (gap : String)
    (all : List (String × Option String)) : List String :=
  (allow.getD (all.map Prod.fst)).filterMap fun p =>
    match all.lookup p with
    | some (some v) => some (quote p ++ ":" ++ (if gap == "" then "" else " ") ++ v)
    | _ => none

/-- The members of SerializeJSONObject on an Error instance.  With a replacer array each
of its names is read with Get, which also finds the inherited message `''` and class
name; without one only the enumerable own properties are listed, which leaves out
`message`, `stack` and `cause`. -/
def errorLines (allow : Option (List String)) (gap name : String)
    (all : List (String × Option String)) : List String :=
  match allow with
  | some names =>
    names.filterMap fun p =>
      (match all.lookup p with
        | some r => r
        | none =>
          if p == "message" then some (quote "")
          else if p == "name" then some (quote name) else none).map
        fun v => quote p ++ ":" ++ (if gap == "" then "" else " ") ++ v
  | none =>
    ((all.map Prod.fst).filter fun p => !(p == "message" || p == "stack" || p == "cause")).filterMap
      fun p =>
        match all.lookup p with
        | some (some v) => some (quote p ++ ":" ++ (if gap == "" then "" else " ") ++ v)
        | _ => none

mutual
/-- SerializeJSONProperty on a value: `none` is `undefined`. -/
def serialize (allow : Option (List String)) (gap stepback : String) : JSVal → Option String
  | .undefined => none
  | .null => some "null"
  | .bool b => some (if b then "true" else "false")
  | .num lit =>
    some (if lit == "NaN" || lit == "Infinity" || lit == "-Infinity" then "null" else lit)
  | .str s => some (quote s)
  | .arr xs =>
    some (wrapJSON "[" "]" gap stepback (serializeItems allow gap (stepback ++ gap) xs))
  | .obj ps =>
    some (wrapJSON "\x7b" "\x7d" gap stepback
      (memberLines allow gap (serializeProps allow gap (stepback ++ gap) ps)))
  | .error name ps =>
    some (wrapJSON "\x7b" "\x7d" gap stepback
      (errorLines allow gap name (serializeProps allow gap (stepback ++ gap) ps)))
/-- The elements of an array, each serialised; `undefined` becomes `null`. -/
def serializeItems (allow : Option (List String)) (gap stepback : String) :
    List JSVal → List String
  | [] => []
  | x :: xs =>
    (serialize allow gap stepback x).getD "null" :: serializeItems allow gap stepback xs
/-- The own properties of an object, each value serialised. -/
def serializeProps (allow : Option (List String)) (gap stepback : String) :
    List (String × JSVal) → List (String × Option String)
  | [] => []
  | (k, v) :: ps =>
    (k, serialize allow gap stepback v) :: serializeProps allow gap stepback ps
end

/-- Call `JSON.stringify(v)`. -/
def stringify (v : JSVal) : Option String :=
  serialize none "" "" v

/-- Call `JSON.stringify(v, null, 2)`. -/
def stringifyIndented (v : JSVal) : Option String :=
  serialize none "  " "" v

/-- Call `JSON.stringify(v, names, 2)` with an array of names as replacer. -/
def stringifyNames (v : JSVal) (names : List String) : Option String :=
  serialize (some names) "  " "" v

/-- Length of a string in UTF-16 code units. -/
def utf16Len (s : String) : Nat :=
  (s.data.map fun c => if c.toNat < 65536 then 1 else 2).sum

/-- The index names `'0'`, ..., `'n-1'`. -/
def indexNames (n : Nat) : List String :=
  (List.range n).map toString

/-- Call `Object.getOwnPropertyNames(v)`: `none` is the TypeError raised for `undefined`
and `null`. -/
def getOwnPropertyNames : JSVal → Option (List String)
  | .undefined => none
  | .null => none
  | .bool _ => some []
  | .num _ => some []
  | .str s => some (indexNames (utf16Len s) ++ ["length"])
  | .arr xs => some (indexNames xs.length ++ ["length"])
  | .obj ps => some (ps.map Prod.fst)
  | .error _ ps => some (ps.map Prod.fst)

/-- Expression `new Error(msg)`, as far as the handlers read it: its own `message` (the
text of its own `stack` is the engine's). -/
def newError (msg : String) : JSVal :=
  .error "Error" [("message", .str msg)]

/-! ## Display state and effects -/

/-- The `useState` cells of `App` that the handlers read or write. -/
structure AppState where
  prompt : String
  aiText : String
  isLoading : Bool
  error : String
  modelsText : String
  isSupabaseLoading : Bool
  supabaseStatus : String

/-- The initial values given to `useState`. -/
def initial : AppState :=
  ⟨"", "", false, "", "", false, ""⟩

/-- What a handler does, in program order. -/
inductive Event where
  | setAiText (s : String)
  | setIsLoading (b : Bool)
  | setError (s : String)
  | setModelsText (s : String)
  | setIsSupabaseLoading (b : Bool)
  | setSupabaseStatus (s : String)
  | selectDogs
  | generateContent (apiKey modelId prompt : String)
  | fetchModels (url : String)
  | rpc (fn : String)
  | alert (msg : String)
  deriving DecidableEq

/-- A request to the Data Store (`select` on `dogs`). -/
def Event.isStoreRequest : Event → Bool
  | .selectDogs => true
  | _ => false

/-- A request to the Generation Service (content generation or model listing). -/
def Event.isGenerationRequest : Event → Bool
  | .generateContent _ _ _ => true
  | .fetchModels _ => true
  | _ => false

/-- Effect of one event on the display state. -/
def apply (s : AppState) : Event → AppState
  | .setAiText t => { s with aiText := t }
  | .setIsLoading b => { s with isLoading := b }
  | .setError e => { s with error := e }
  | .setModelsText t => { s with modelsText := t }
  | .setIsSupabaseLoading b => { s with isSupabaseLoading := b }
  | .setSupabaseStatus t => { s with supabaseStatus := t }
  | _ => s

/-- The display state after a list of events. -/
def run (s : AppState) (evs : List Event) : AppState :=
  evs.foldl apply s

/-- Truthiness of a value of `import.meta.env`: a string or `undefined`. -/
def envTruthy : Option String → Bool
  | none => false
  | some k => !(k == "")

/-! ## handleSearch -/

/-- Outcome of `await supabase.from('dogs').select('*')`, and of `await pingSupabase()`. -/
inductive StoreOutcome where
  | resolved (data error : JSVal)
  | rejected (e : JSVal)

/-- Outcome of `model.generateContent(enrichedPrompt)` followed by `result.response.text()`. -/
inductive GenOutcome where
  | text (t : String)
  | thrown (e : JSVal)

/-- The template literal `enrichedPrompt` of `handleSearch`. -/
def enrichedPrompt (prompt : String) (dogs : JSVal) : String :=
  "Sei un esperto cinofilo. L'utente cerca: '" ++ prompt
    ++ "'. Abbiamo SOLO questi cani disponibili nel rifugio: "
    ++ templ (stringify (jsOr dogs (.arr [])))
    ++ ". Se uno di questi cani corrisponde alla richiesta, consigliolo con entusiasmo descrivendolo. Altrimenti dai consigli generali. Ogni cane nella lista ha un campo 'image_url'. Se consigli uno specifico cane, DEVI includere la sua foto alla fine della risposta usando la sintassi Markdown esatta: ![Nome Cane](URL_IMMAGINE)."

/-- The constant `friendly` of the catch block. -/
def friendly (error : JSVal) : JSVal :=
  if isStringIncluding "429" (optMember "message" error) then
    .str "Quota superata: attendi qualche secondo o usa un modello più leggero."
  else jsOr (member "message" error) (.str "Errore sconosciuto durante la generazione.")

/-- The argument of `alert` in the catch block. -/
def alertText (error : JSVal) : JSVal :=
  jsOr (optMember "message" error) (.str "Errore durante la generazione.")

/-- The catch block of `handleSearch`.  The console calls write nothing to the display
state, but the fourth one evaluates `Object.getOwnPropertyNames(error)`, whose TypeError
on `undefined` and `null` leaves the block before any setter runs. -/
def catchSearch (error : JSVal) : List Event :=
  match getOwnPropertyNames error with
  | none => []
  | some names =>
    [ .setError (toStr (friendly error) ++ "\n\nDettagli:\n"
        ++ templ (stringifyNames error names)),
      .alert (toStr (alertText error)),
      .setAiText "" ]

/-- Handler `handleSearch`: `apiKey` is `import.meta.env.VITE_GEMMA_API_KEY`, `s` the
state the handler closes over, `sel` the outcome of the Data Store read and `gen` the
outcome of the generation call (consulted only when the call is made). -/
def handleSearch (apiKey : Option String) (s : AppState) (sel : StoreOutcome)
    (gen : GenOutcome) : List Event :=
  if !envTruthy apiKey then
    [ .setError "API key mancante: aggiungi VITE_GEMMA_API_KEY in .env.local",
      .setAiText "" ]
  else
    [ .setError "", .setIsLoading true, .setAiText "", .selectDogs ]
      ++ (match sel with
          | .rejected e => catchSearch e
          | .resolved dogs dogsError =>
            if truthy dogsError then catchSearch dogsError
            else
              .generateContent (apiKey.getD "") "models/gemma-3-12b-it"
                  (enrichedPrompt s.prompt dogs)
                :: (match gen with
                    | .text t => [ .setAiText t, .setError "" ]
                    | .thrown e => catchSearch e))
      ++ [ .setIsLoading false ]

/-! ## handleListModels -/

/-- Outcome of `res.json()`. -/
inductive BodyOutcome where
  | json (data : JSVal)
  | rejected (e : JSVal)

/-- Outcome of the `fetch` of the model-listing endpoint. -/
inductive FetchOutcome where
  | response (status : Nat) (statusText : String) (body : BodyOutcome)
  | rejected (e : JSVal)

/-- The arrow function mapped over `data.models`; `none` is a TypeError (reading a
property of `undefined` or `null`, or calling a `join` that is not a function). -/
def describeModel : JSVal → Option String
  | .undefined => none
  | .null => none
  | m =>
    match member "supportedGenerationMethods" m with
    | .undefined =>
      some (toStr (member "name" m) ++ " (" ++ toStr (jsOr .undefined (.str "no methods")) ++ ")")
    | .null =>
      some (toStr (member "name" m) ++ " (" ++ toStr (jsOr .undefined (.str "no methods")) ++ ")")
    | .arr ms =>
      some (toStr (member "name" m) ++ " ("
        ++ toStr (jsOr (.str (join ", " ms)) (.str "no methods")) ++ ")")
    | _ => none

/-- The call `models.map(m => ...)` on the elements of the array, left to right; the
first TypeError of the arrow function ends it. -/
def describeModels : List JSVal → Option (List String)
  | [] => some []
  | m :: ms =>
    match describeModel m with
    | none => none
    | some line =>
      match describeModels ms with
      | none => none
      | some lines => some (line :: lines)

/-- The constant `names`: `data?.models?.map(...) || []`; `none` is a TypeError (`map`
is not a function, or the mapped function raised). -/
def modelNames (data : JSVal) : Option (List String) :=
  match optMember "models" data with
  | .undefined => some []
  | .null => some []
  | .arr ms => describeModels ms
  | _ => none

/-- The constant `output`. -/
def modelsOutput (names : List String) : String :=
  if names.length ≠ 0 then "\n".intercalate names else "Nessun modello disponibile"

/-- The catch block of `handleListModels`: reading `error.message` of `undefined` or
`null` raises, and then no setter runs. -/
def catchListModels : JSVal → List Event
  | .undefined => []
  | .null => []
  | e => [ .setError ("ERRORE GOOGLE listModels: " ++ toStr (member "message" e)) ]

/-- Handler `handleListModels`; `typeError` is the TypeError object the engine raises
when the response has not the shape the handler reads. -/
def handleListModels (apiKey : Option String) (out : FetchOutcome) (typeError : JSVal) :
    List Event :=
  if !envTruthy apiKey then
    [ .setError "API key mancante: aggiungi VITE_GEMMA_API_KEY in .env.local" ]
  else
    .fetchModels ("https://generativelanguage.googleapis.com/v1/models?key=" ++ apiKey.getD "")
      :: (match out with
          | .rejected e => catchListModels e
          | .response status statusText body =>
            if !(decide (200 ≤ status) && decide (status ≤ 299)) then
              catchListModels (newError ("HTTP " ++ toString status ++ " " ++ statusText))
            else
              match body with
              | .rejected e => catchListModels e
              | .json data =>
                match modelNames data with
                | none => catchListModels typeError
                | some names => [ .setModelsText (modelsOutput names), .setError "" ])

/-! ## handleSupabaseTest -/

/-- Handler `handleSupabaseTest`, with `pingSupabase` of `supabaseClient.js` inlined; the
stored procedure it invokes is `pg_tables_list` (the comment above `pingSupabase` speaks
of `pg_catalog.pg_tables`). -/
def handleSupabaseTest (out : StoreOutcome) : List Event :=
  [ .setSupabaseStatus "", .setIsSupabaseLoading true, .rpc "pg_tables_list" ]
    ++ (match out with
        | .resolved data supaError =>
          if truthy supaError then
            [ .setSupabaseStatus ("Errore Supabase: " ++ toStr (member "message" supaError)) ]
          else [ .setSupabaseStatus ("Supabase OK: " ++ templ (stringifyIndented data)) ]
        | .rejected err =>
          [ .setSupabaseStatus ("Errore Supabase: "
              ++ toStr (jsOr (optMember "message" err) (.str "sconosciuto"))) ])
    ++ [ .setIsSupabaseLoading false ]

/-- The value that reaches the catch block of `handleSearch` once the credential check
is passed: a rejected Data Store read, the error the Data Store reports, or what the
generation call throws; `none` when the search succeeds. -/
def caught : StoreOutcome → GenOutcome → Option JSVal
  | .rejected e, _ => some e
  | .resolved _ dogsError, gen =>
    if truthy dogsError then some dogsError
    else
      match gen with
      | .text _ => none
      | .thrown e => some e

/-! ## Sequences of user actions -/

/-- One user action with the outcomes of its external calls. -/
inductive Action where
  | typeQuery (q : String)
  | search (sel : StoreOutcome) (gen : GenOutcome)
  | listModels (out : FetchOutcome) (typeError : JSVal)
  | supabaseTest (out : StoreOutcome)

/-- The display state after one action. -/
def perform (apiKey : Option String) (s : AppState) : Action → AppState
  | .typeQuery q => { s with prompt := q }
  | .search sel gen => run s (handleSearch apiKey s sel gen)
  | .listModels out te => run s (handleListModels apiKey out te)
  | .supabaseTest out => run s (handleSupabaseTest out)

/-- The display state after a sequence of actions. -/
def performAll (apiKey : Option String) (s : AppState) (acts : List Action) : AppState :=
  acts.foldl (perform apiKey) s

/-- The model listing went through: the response is 2xx, its body parses and has the
shape the handler reads. -/
def FetchOutcome.listed : FetchOutcome → Bool
  | .response status _ (.json data) =>
    decide (200 ≤ status) && decide (status ≤ 299) && (modelNames data).isSome
  | _ => false

/-- An action that is not a model listing, or a model listing that went through. -/
def Action.listingOk : Action → Bool
  | .listModels out _ => out.listed
  | _ => true

/-! ## supabaseClient.js -/

/-- What the evaluation of `supabaseClient.js` can raise: the Error of its own guard,
with its message, or whatever the call of `createClient` throws. -/
inductive InitError where
  | missingEnv (message : String)
  | createClient (thrown : JSVal)

/-- Evaluation of the module `supabaseClient.js`.  The library function `createClient`
is a parameter: given the URL and the key it returns a client or throws. -/
def supabase {Client : Type} (createClient : String → String → Except JSVal Client)
    (supabaseUrl supabaseAnonKey : Option String) : Except InitError Client :=
  if !envTruthy supabaseUrl || !envTruthy supabaseAnonKey then
    .error (.missingEnv
      "Supabase env vars mancanti: configura VITE_SUPABASE_URL e VITE_SUPABASE_ANON_KEY")
  else
    match createClient (supabaseUrl.getD "") (supabaseAnonKey.getD "") with
    | .ok client => .ok client
    | .error thrown => .error (.createClient thrown)

/-- A client of the library, as far as its two settings. -/
structure SupabaseClient where
  supabaseUrl : String
  supabaseKey : String

/-- The scheme check with which `createClient` of supabase-js opens (the library also
trims and parses the URL): a URL that does not begin with `http://` or `https://`, in
any letter case, is refused with an Error. -/
def createClientSchemeCheck (supabaseUrl supabaseKey : String) :
    Except JSVal SupabaseClient :=
  if "http://".data.isPrefixOf (supabaseUrl.data.map Char.toLower)
      || "https://".data.isPrefixOf (supabaseUrl.data.map Char.toLower) then
    .ok ⟨supabaseUrl, supabaseKey⟩
  else .error (newError "Invalid supabaseUrl: Must be a valid HTTP or HTTPS URL.")

/-! ## Typed model-listing responses -/

/-- One entry of the listing response: a name and, optionally, its generation methods. -/
structure ModelInfo where
  name : String
  supportedGenerationMethods : Option (List String)

/-- The entry as parsed JSON. -/
def ModelInfo.toJS (m : ModelInfo) : JSVal :=
  match m.supportedGenerationMethods with
  | none => .obj [("name", .str m.name)]
  | some ms => .obj [("name", .str m.name), ("supportedGenerationMethods", .arr (ms.map .str))]

/-- The listing response as parsed JSON; `none` is a response without `models`. -/
def listingJS : Option (List ModelInfo) → JSVal
  | none => .obj []
  | some ms => .obj [("models", .arr (ms.map ModelInfo.toJS))]

/-- The methods of an entry joined by a comma and a space; nothing when none is declared. -/
def ModelInfo.joined (m : ModelInfo) : String :=
  ", ".intercalate (m.supportedGenerationMethods.getD [])

/-- The display line the claim gives for an entry: the placeholder when no methods are
declared or the list is empty. -/
def ModelInfo.lineAsClaimed (m : ModelInfo) : String :=
  m.name ++ " ("
    ++ (if (m.supportedGenerationMethods.getD []).isEmpty then "no methods" else m.joined)
    ++ ")"

/-- The display line of an entry: the placeholder when the joined methods are empty. -/
def ModelInfo.line (m : ModelInfo) : String :=
  m.name ++ " (" ++ (if m.joined == "" then "no methods" else m.joined) ++ ")"

/-! ## Replaying events -/

theorem run_append (s : AppState) (a b : List Event) : run s (a ++ b) = run (run s a) b := by
  simp [run, List.foldl_append]

theorem envTruthy_false_iff (k : Option String) :
    envTruthy k = false ↔ k = none ∨ k = some "" := by
  cases k with
  | none => simp [envTruthy]
  | some v => simp [envTruthy]

theorem envTruthy_some (k : String) (hk : k ≠ "") : envTruthy (some k) = true := by
  simp [envTruthy, hk]

/-- The catch block of the search never requests a generation and never reads the store. -/
theorem catchSearch_no_request (e : JSVal) (ev : Event) (h : ev ∈ catchSearch e) :
    ev.isStoreRequest = false ∧ ev.isGenerationRequest = false := by
  unfold catchSearch at h
  cases hn : getOwnPropertyNames e with
  | none => simp [hn] at h
  | some names =>
    simp only [hn, List.mem_cons, List.mem_singleton, List.not_mem_nil, or_false] at h
    rcases h with h | h | h <;> subst h <;> exact ⟨rfl, rfl⟩

/-- Optional chaining differs from a plain property read only where the plain read
raises; as values the two agree. -/
theorem optMember_eq_member (k : String) (e : JSVal) : optMember k e = member k e := by
  cases e <;> rfl

theorem names_of_truthy (e : JSVal) (h : truthy e = true) :
    ∃ names, getOwnPropertyNames e = some names := by
  cases e <;> first | exact ⟨_, rfl⟩ | simp [truthy] at h

theorem names_of_optMember (k : String) (e : JSVal) (m : String)
    (h : optMember k e = .str m) : ∃ names, getOwnPropertyNames e = some names := by
  cases e <;> first | exact ⟨_, rfl⟩ | simp [optMember, member] at h

theorem catchSearch_of_names (e : JSVal) (names : List String)
    (h : getOwnPropertyNames e = some names) :
    catchSearch e
      = [ .setError (toStr (friendly e) ++ "\n\nDettagli:\n"
            ++ templ (stringifyNames e names)),
          .alert (toStr (alertText e)),
          .setAiText "" ] := by
  simp [catchSearch, h]

/-- Once the credential check is passed, a failing search runs the opening setters, the
Data Store read, possibly the generation request, then the catch block and the finally
block. -/
theorem handleSearch_caught (k : String) (s : AppState) (sel : StoreOutcome)
    (gen : GenOutcome) (e : JSVal) (hk : k ≠ "") (hc : caught sel gen = some e) :
    ∃ pre, handleSearch (some k) s sel gen
        = ([ .setError "", .setIsLoading true, .setAiText "", .selectDogs ] ++ pre)
            ++ catchSearch e ++ [ .setIsLoading false ]
      ∧ (pre = [] ∨ ∃ p, pre = [ .generateContent k "models/gemma-3-12b-it" p ]) := by
  have hkey : envTruthy (some k) = true := envTruthy_some k hk
  cases sel with
  | rejected e0 =>
    simp only [caught, Option.some.injEq] at hc
    subst hc
    exact ⟨[], by simp [handleSearch, hkey], Or.inl rfl⟩
  | resolved dogs dogsError =>
    cases hd : truthy dogsError with
    | true =>
      simp only [caught, hd, if_true, Option.some.injEq] at hc
      subst hc
      exact ⟨[], by simp [handleSearch, hkey, hd], Or.inl rfl⟩
    | false =>
      cases gen with
      | text t => simp [caught, hd] at hc
      | thrown e0 =>
        simp only [caught, hd, Bool.false_eq_true, if_false, Option.some.injEq] at hc
        subst hc
        exact ⟨[ .generateContent k "models/gemma-3-12b-it" (enrichedPrompt s.prompt dogs) ],
          by simp [handleSearch, hkey, hd], Or.inr ⟨_, rfl⟩⟩

/-! ## Model listing on typed responses -/

theorem joinItems_strings (ms : List String) : joinItems (ms.map JSVal.str) = ms := by
  induction ms with
  | nil => rfl
  | cons x xs ih => simp [joinItems, toStr, ih]

theorem describeModel_toJS (m : ModelInfo) : describeModel m.toJS = some m.line := by
  obtain ⟨name, methods⟩ := m
  cases methods with
  | none =>
    simp [ModelInfo.toJS, describeModel, member, List.lookup, toStr, jsOr, truthy,
      ModelInfo.line, ModelInfo.joined, String.intercalate]
  | some ms =>
    by_cases hj : ", ".intercalate ms = ""
    · simp [ModelInfo.toJS, describeModel, member, List.lookup, toStr, jsOr, truthy,
        ModelInfo.line, ModelInfo.joined, join, joinItems_strings, hj]
    · simp [ModelInfo.toJS, describeModel, member, List.lookup, toStr, jsOr, truthy,
        ModelInfo.line, ModelInfo.joined, join, joinItems_strings, hj]

theorem describeModels_toJS (ms : List ModelInfo) :
    describeModels (ms.map ModelInfo.toJS) = some (ms.map ModelInfo.line) := by
  induction ms with
  | nil => rfl
  | cons m ms ih => simp [describeModels, describeModel_toJS, ih]

theorem modelNames_listingJS (ms : Option (List ModelInfo)) :
    modelNames (listingJS ms) = some ((ms.getD []).map ModelInfo.line) := by
  cases ms with
  | none => rfl
  | some ms =>
    simp [listingJS, modelNames, optMember, member, List.lookup, describeModels_toJS]

theorem intercalate_go_length (sep : String) (l : List String) (acc : String) :
    acc.length ≤ (String.intercalate.go acc sep l).length := by
  induction l generalizing acc with
  | nil => simp [String.intercalate.go]
  | cons a as ih =>
    simp only [String.intercalate.go]
    refine le_trans ?_ (ih (acc ++ sep ++ a))
    simp only [String.length_append]
    omega

theorem intercalate_ne_empty (sep x : String) (xs : List String) (hx : x ≠ "") :
    sep.intercalate (x :: xs) ≠ "" := by
  intro h
  have h1 := intercalate_go_length sep xs x
  have h2 : (sep.intercalate (x :: xs)).length = 0 := by rw [h]; rfl
  simp only [String.intercalate] at h2
  have h3 : x.length = 0 := by omega
  exact hx (String.ext (List.length_eq_zero.mp h3))

theorem line_eq_lineAsClaimed (m : ModelInfo)
    (h : ∀ x ∈ m.supportedGenerationMethods.getD [], x ≠ "") :
    m.line = m.lineAsClaimed := by
  obtain ⟨name, methods⟩ := m
  cases methods with
  | none => rfl
  | some ms =>
    cases ms with
    | nil => rfl
    | cons x xs =>
      have hx : x ≠ "" := h x (by simp)
      have hj := intercalate_ne_empty ", " x xs hx
      simp [ModelInfo.line, ModelInfo.lineAsClaimed, ModelInfo.joined, hj]

/-! ## Sequences of actions -/

theorem handleSupabaseTest_keeps (s : AppState) (out : StoreOutcome) :
    (run s (handleSupabaseTest out)).aiText = s.aiText
      ∧ (run s (handleSupabaseTest out)).error = s.error := by
  cases out with
  | rejected e => exact ⟨rfl, rfl⟩
  | resolved data supaError =>
    cases h : truthy supaError <;> simp [handleSupabaseTest, h, run, apply]

/-- After a search, whatever its outcome, the result text and the error are not both
shown, and no result text is shown without a credential. -/
theorem handleSearch_exclusive (apiKey : Option String) (s : AppState)
    (sel : StoreOutcome) (gen : GenOutcome) :
    (envTruthy apiKey = false → (run s (handleSearch apiKey s sel gen)).aiText = "")
      ∧ ((run s (handleSearch apiKey s sel gen)).aiText = ""
          ∨ (run s (handleSearch apiKey s sel gen)).error = "") := by
  cases hkey : envTruthy apiKey with
  | false =>
    have h : (run s (handleSearch apiKey s sel gen)).aiText = "" := by
      simp [handleSearch, hkey, run, apply]
    exact ⟨fun _ => h, Or.inl h⟩
  | true =>
    refine ⟨fun h => by simp at h, ?_⟩
    cases sel with
    | rejected e =>
      cases hn : getOwnPropertyNames e <;>
        simp [handleSearch, hkey, catchSearch, hn, run, apply]
    | resolved dogs dogsError =>
      cases hd : truthy dogsError with
      | true =>
        cases hn : getOwnPropertyNames dogsError <;>
          simp [handleSearch, hkey, hd, catchSearch, hn, run, apply]
      | false =>
        cases gen with
        | text t => simp [handleSearch, hkey, hd, run, apply]
        | thrown e =>
          cases hn : getOwnPropertyNames e <;>
            simp [handleSearch, hkey, hd, catchSearch, hn, run, apply]

/-- A model listing that goes through leaves the result text alone and, with a
credential, clears the error. -/
theorem handleListModels_listed (apiKey : Option String) (s : AppState) (out : FetchOutcome)
    (typeError : JSVal) (h : out.listed = true) :
    (run s (handleListModels apiKey out typeError)).aiText = s.aiText
      ∧ (envTruthy apiKey = true → (run s (handleListModels apiKey out typeError)).error = "") := by
  cases out with
  | rejected e => simp [FetchOutcome.listed] at h
  | response status statusText body =>
    cases body with
    | rejected e => simp [FetchOutcome.listed] at h
    | json data =>
      simp only [FetchOutcome.listed, Bool.and_eq_true, decide_eq_true_eq] at h
      obtain ⟨⟨h1, h2⟩, h3⟩ := h
      obtain ⟨names, hnames⟩ := Option.isSome_iff_exists.mp h3
      cases hkey : envTruthy apiKey with
      | false => simp [handleListModels, hkey, run, apply]
      | true => simp [handleListModels, hkey, h1, h2, hnames, run, apply]

/-- The result text and the error are not both shown, and no result text is shown
without a credential: this holds initially and is kept by every action other than a
model listing that fails. -/
theorem performAll_exclusive (apiKey : Option String) (acts : List Action) (s : AppState)
    (h : ∀ a ∈ acts, a.listingOk = true)
    (hs : (envTruthy apiKey = false → s.aiText = "") ∧ (s.aiText = "" ∨ s.error = "")) :
    (envTruthy apiKey = false → (performAll apiKey s acts).aiText = "")
      ∧ ((performAll apiKey s acts).aiText = "" ∨ (performAll apiKey s acts).error = "") := by
  induction acts generalizing s with
  | nil => exact hs
  | cons a acts ih =>
    have hrest : ∀ b ∈ acts, b.listingOk = true := fun b hb => h b (List.mem_cons_of_mem a hb)
    have ha : a.listingOk = true := h a (List.mem_cons_self a acts)
    show _ ∧ ((performAll apiKey (perform apiKey s a) acts).aiText = "" ∨ _)
    apply ih (perform apiKey s a) hrest
    cases a with
    | typeQuery q => exact hs
    | search sel gen => exact handleSearch_exclusive apiKey s sel gen
    | supabaseTest out =>
      obtain ⟨h1, h2⟩ := handleSupabaseTest_keeps s out
      simp only [perform, h1, h2]
      exact hs
    | listModels out te =>
      obtain ⟨h1, h2⟩ := handleListModels_listed apiKey s out te ha
      simp only [perform, h1]
      refine ⟨hs.1, ?_⟩
      cases hkey : envTruthy apiKey with
      | false => exact Or.inl (hs.1 hkey)
      | true => exact Or.inr (h2 hkey)

/-! ## The short message and the alert text -/

theorem isStringIncluding_429 (v : JSVal) (h : isStringIncluding "429" v = true) :
    ∃ m, v = .str m ∧ includes m "429" = true ∧ truthy v = true := by
  cases v with
  | str m =>
    refine ⟨m, rfl, h, ?_⟩
    have hne : m ≠ "" := by
      intro h0
      subst h0
      revert h
      decide
    simp [truthy, hne]
  | _ => simp [isStringIncluding] at h

/-! ## The claims -/

/-- C1: when the generation credential is absent or empty, for every query and prior
state, handleSearch performs exactly two effects, setting the error to the fixed
configuration message and the result text to the empty string: no Data Store request,
no Generation Service request, and the loading flag is never set and keeps its value. -/
theorem handleSearch_missing_key (apiKey : Option String) (s : AppState)
    (sel : StoreOutcome) (gen : GenOutcome) (h : apiKey = none ∨ apiKey = some "") :
    handleSearch apiKey s sel gen
        = [ .setError "API key mancante: aggiungi VITE_GEMMA_API_KEY in .env.local",
            .setAiText "" ]
      ∧ (∀ ev ∈ handleSearch apiKey s sel gen,
          ev.isStoreRequest = false ∧ ev.isGenerationRequest = false
            ∧ ∀ b, ev ≠ .setIsLoading b)
      ∧ (run s (handleSearch apiKey s sel gen)).error
          = "API key mancante: aggiungi VITE_GEMMA_API_KEY in .env.local"
      ∧ (run s (handleSearch apiKey s sel gen)).aiText = ""
      ∧ (run s (handleSearch apiKey s sel gen)).isLoading = s.isLoading := by
  have hk : envTruthy apiKey = false := (envTruthy_false_iff apiKey).2 h
  have htr : handleSearch apiKey s sel gen
      = [ .setError "API key mancante: aggiungi VITE_GEMMA_API_KEY in .env.local",
          .setAiText "" ] := by
    simp [handleSearch, hk]
  rw [htr]
  refine ⟨rfl, ?_, rfl, rfl, rfl⟩
  intro ev hev
  simp only [List.mem_cons, List.mem_singleton, List.not_mem_nil, or_false] at hev
  rcases hev with hev | hev <;> subst hev <;> exact ⟨rfl, rfl, fun b hb => by cases hb⟩

theorem handleSearch_missing_key_witness :
    (run { initial with prompt := "cane piccolo", aiText := "Rex", isLoading := false }
        (handleSearch (some "") { initial with prompt := "cane piccolo", aiText := "Rex" }
          (.resolved (.arr []) .null) (.text "Fido"))).error
      = "API key mancante: aggiungi VITE_GEMMA_API_KEY in .env.local" :=
  (handleSearch_missing_key (some "") { initial with prompt := "cane piccolo", aiText := "Rex" }
    (.resolved (.arr []) .null) (.text "Fido") (Or.inr rfl)).2.2.1

/-- C4: with a configured credential, a Data Store read that reports no error and a
generation call that returns the text t, handleSearch ends with the displayed result
equal to t, untransformed, and with the empty error. -/
theorem handleSearch_success (k : String) (s : AppState) (dogs dogsError : JSVal)
    (t : String) (hk : k ≠ "") (hd : truthy dogsError = false) :
    (run s (handleSearch (some k) s (.resolved dogs dogsError) (.text t))).aiText = t
      ∧ (run s (handleSearch (some k) s (.resolved dogs dogsError) (.text t))).error = "" := by
  simp [handleSearch, envTruthy, hk, hd, run, apply]

theorem handleSearch_success_witness :
    (run initial (handleSearch (some "key") initial
        (.resolved (.arr [.obj [("name", .str "Rex")]]) .null)
        (.text "Ti consiglio Rex! ![Rex](https://x/rex.jpg)"))).aiText
      = "Ti consiglio Rex! ![Rex](https://x/rex.jpg)" :=
  (handleSearch_success "key" initial (.arr [.obj [("name", .str "Rex")]]) .null
    "Ti consiglio Rex! ![Rex](https://x/rex.jpg)" (by decide) rfl).1

/-- C7: every handleSearch that passes the credential check, whatever the outcome of
the Data Store read and of the generation call, reaches the Data Store request with the
loading flag set to true, and ends with the loading flag false. -/
theorem handleSearch_loading (k : String) (s : AppState) (sel : StoreOutcome)
    (gen : GenOutcome) (hk : k ≠ "") :
    (∃ pre post, handleSearch (some k) s sel gen = pre ++ Event.selectDogs :: post
        ∧ Event.selectDogs ∉ pre ∧ (run s pre).isLoading = true)
      ∧ (run s (handleSearch (some k) s sel gen)).isLoading = false := by
  have hkey : envTruthy (some k) = true := envTruthy_some k hk
  constructor
  · refine ⟨[ .setError "", .setIsLoading true, .setAiText "" ], ?_, ?_, by decide, rfl⟩
    · exact (match sel with
          | .rejected e => catchSearch e
          | .resolved dogs dogsError =>
            if truthy dogsError then catchSearch dogsError
            else
              .generateContent ((some k).getD "") "models/gemma-3-12b-it"
                  (enrichedPrompt s.prompt dogs)
                :: (match gen with
                    | .text t => [ .setAiText t, .setError "" ]
                    | .thrown e => catchSearch e))
        ++ [ .setIsLoading false ]
    · simp [handleSearch, hkey]
  · have : ∀ evs : List Event, (run s (evs ++ [ .setIsLoading false ])).isLoading = false := by
      intro evs
      rw [run_append]
      rfl
    simp only [handleSearch, hkey, Bool.not_true, Bool.false_eq_true, if_false]
    exact this _

theorem handleSearch_loading_witness :
    (run initial (handleSearch (some "key") initial
        (.resolved .null (.obj [("message", .str "boom")])) (.text "x"))).isLoading = false :=
  (handleSearch_loading "key" initial (.resolved .null (.obj [("message", .str "boom")]))
    (.text "x") (by decide)).2

/-- C10 (as stated, refuted): with the URL "u" and the key "k", both present and not
empty, the guard of the module passes and the call of createClient raises: the module
does not create a client. -/
theorem supabase_init_raises :
    supabase createClientSchemeCheck (some "u") (some "k")
      = .error (.createClient
          (newError "Invalid supabaseUrl: Must be a valid HTTP or HTTPS URL.")) := by
  rfl

/-- C10 (amended): evaluating the Data Store client module raises the fixed error of
its own guard exactly when the base URL or the public key is absent or empty; when both
are present it calls createClient with exactly the two configured values, and the
outcome of the module is the outcome of that call: the client it returns, or what it
throws. -/
theorem supabase_init {Client : Type} (createClient : String → String → Except JSVal Client)
    (supabaseUrl supabaseAnonKey : Option String) :
    (supabase createClient supabaseUrl supabaseAnonKey
        = .error (.missingEnv
            "Supabase env vars mancanti: configura VITE_SUPABASE_URL e VITE_SUPABASE_ANON_KEY")
      ↔ ((supabaseUrl = none ∨ supabaseUrl = some "")
          ∨ (supabaseAnonKey = none ∨ supabaseAnonKey = some "")))
      ∧ ((∃ u k, supabaseUrl = some u ∧ supabaseAnonKey = some k ∧ u ≠ "" ∧ k ≠ ""
            ∧ supabase createClient supabaseUrl supabaseAnonKey
                = (match createClient u k with
                    | .ok client => .ok client
                    | .error thrown => .error (.createClient thrown)))
          ∨ ((supabaseUrl = none ∨ supabaseUrl = some "")
              ∨ (supabaseAnonKey = none ∨ supabaseAnonKey = some ""))) := by
  rw [← envTruthy_false_iff, ← envTruthy_false_iff]
  cases hu : envTruthy supabaseUrl with
  | false => simp [supabase, hu]
  | true =>
    cases hk : envTruthy supabaseAnonKey with
    | false => simp [supabase, hu, hk]
    | true =>
      cases supabaseUrl with
      | none => simp [envTruthy] at hu
      | some u =>
        cases supabaseAnonKey with
        | none => simp [envTruthy] at hk
        | some k =>
          have hu0 : u ≠ "" := by simpa [envTruthy] using hu
          have hk0 : k ≠ "" := by simpa [envTruthy] using hk
          have hrun : supabase createClient (some u) (some k)
              = (match createClient u k with
                  | .ok client => .ok client
                  | .error thrown => .error (.createClient thrown)) := by
            simp [supabase, hu, hk]
          refine ⟨?_, Or.inl ⟨u, k, rfl, rfl, hu0, hk0, hrun⟩⟩
          rw [hrun]
          constructor
          · intro h
            cases hc : createClient u k <;> rw [hc] at h <;> simp at h
          · intro h
            simp at h

/-- C2 (as stated, refuted): the Data Store reports an error whose message is
"permission denied for table dogs"; the displayed error is that message followed by the
details block, not the message itself. -/
theorem store_error_not_verbatim :
    (run initial (handleSearch (some "key") initial
        (.resolved .null
          (.obj [("code", .str "42501"), ("details", .null), ("hint", .null),
            ("message", .str "permission denied for table dogs")]))
        (.text "x"))).error
      = "permission denied for table dogs\n\nDettagli:\n\x7b\n  \"code\": \"42501\",\n  \"details\": null,\n  \"hint\": null,\n  \"message\": \"permission denied for table dogs\"\n\x7d"
      ∧ (run initial (handleSearch (some "key") initial
          (.resolved .null
            (.obj [("code", .str "42501"), ("details", .null), ("hint", .null),
              ("message", .str "permission denied for table dogs")]))
          (.text "x"))).error
        ≠ "permission denied for table dogs" := by
  decide

/-- C2 (amended): whenever the Data Store reports an error, no Generation Service
request is made and the displayed error is the short message, the separator
"\n\nDettagli:\n" and the indented dump of the error object; the short message is the
store's message when that is a non-empty string without "429", the quota text when it
holds "429", and the generic fallback when the message is empty or missing. -/
theorem store_error_display (k : String) (s : AppState) (dogs dogsError : JSVal)
    (gen : GenOutcome) (hk : k ≠ "") (hd : truthy dogsError = true) :
    (∀ ev ∈ handleSearch (some k) s (.resolved dogs dogsError) gen,
        ev.isGenerationRequest = false)
      ∧ ∃ names, getOwnPropertyNames dogsError = some names
        ∧ (∀ m, member "message" dogsError = .str m → m ≠ "" → includes m "429" = false →
            (run s (handleSearch (some k) s (.resolved dogs dogsError) gen)).error
              = m ++ "\n\nDettagli:\n" ++ templ (stringifyNames dogsError names))
        ∧ (∀ m, member "message" dogsError = .str m → includes m "429" = true →
            (run s (handleSearch (some k) s (.resolved dogs dogsError) gen)).error
              = "Quota superata: attendi qualche secondo o usa un modello più leggero."
                ++ "\n\nDettagli:\n" ++ templ (stringifyNames dogsError names))
        ∧ (truthy (member "message" dogsError) = false →
            (run s (handleSearch (some k) s (.resolved dogs dogsError) gen)).error
              = "Errore sconosciuto durante la generazione."
                ++ "\n\nDettagli:\n" ++ templ (stringifyNames dogsError names)) := by
  have hkey : envTruthy (some k) = true := envTruthy_some k hk
  obtain ⟨names, hn⟩ := names_of_truthy dogsError hd
  have hopt : optMember "message" dogsError = member "message" dogsError :=
    optMember_eq_member "message" dogsError
  have htr : handleSearch (some k) s (.resolved dogs dogsError) gen
      = [ .setError "", .setIsLoading true, .setAiText "", .selectDogs,
          .setError (toStr (friendly dogsError) ++ "\n\nDettagli:\n"
            ++ templ (stringifyNames dogsError names)),
          .alert (toStr (alertText dogsError)), .setAiText "", .setIsLoading false ] := by
    simp [handleSearch, hkey, hd, catchSearch_of_names dogsError names hn]
  have herr : (run s (handleSearch (some k) s (.resolved dogs dogsError) gen)).error
      = toStr (friendly dogsError) ++ "\n\nDettagli:\n"
          ++ templ (stringifyNames dogsError names) := by
    rw [htr]; rfl
  refine ⟨?_, names, hn, ?_, ?_, ?_⟩
  · intro ev hev
    rw [htr] at hev
    simp only [List.mem_cons, List.mem_singleton, List.not_mem_nil, or_false] at hev
    rcases hev with h | h | h | h | h | h | h | h <;> subst h <;> rfl
  · intro m hm hne h429
    rw [herr]
    simp [friendly, hopt, hm, isStringIncluding, h429, jsOr, truthy, hne, toStr]
  · intro m hm h429
    rw [herr]
    simp [friendly, hopt, hm, isStringIncluding, h429, toStr]
  · intro hf
    rw [herr]
    have hno : isStringIncluding "429" (member "message" dogsError) = false := by
      cases hmm : member "message" dogsError with
      | str m =>
        rw [hmm] at hf
        have : m = "" := by simpa [truthy] using hf
        subst this
        decide
      | _ => rfl
    simp [friendly, hopt, hno, jsOr, hf, toStr]

theorem store_error_display_witness :
    ∃ names, getOwnPropertyNames (.obj [("message", .str "boom")]) = some names
      ∧ (run initial (handleSearch (some "key") initial
            (.resolved .null (.obj [("message", .str "boom")])) (.text "x"))).error
          = "boom" ++ "\n\nDettagli:\n"
              ++ templ (stringifyNames (.obj [("message", .str "boom")]) names) := by
  obtain ⟨_, names, hn, h1, _, _⟩ :=
    store_error_display "key" initial .null (.obj [("message", .str "boom")]) (.text "x")
      (by decide) rfl
  exact ⟨names, hn, h1 "boom" rfl (by decide) (by decide)⟩

/-- C3: when the generation call throws an error whose message is a string holding
"429", the short message is the fixed quota text whatever else the error holds, and the
displayed error is that quota text (which is not the raw message) followed by the
details block. -/
theorem quota_message (k : String) (s : AppState) (dogs dogsError e : JSVal) (m : String)
    (hk : k ≠ "") (hd : truthy dogsError = false)
    (hm : optMember "message" e = .str m) (h429 : includes m "429" = true) :
    friendly e = .str "Quota superata: attendi qualche secondo o usa un modello più leggero."
      ∧ "Quota superata: attendi qualche secondo o usa un modello più leggero." ≠ m
      ∧ ∃ names, getOwnPropertyNames e = some names
        ∧ (run s (handleSearch (some k) s (.resolved dogs dogsError) (.thrown e))).error
            = "Quota superata: attendi qualche secondo o usa un modello più leggero."
                ++ "\n\nDettagli:\n" ++ templ (stringifyNames e names) := by
  have hkey : envTruthy (some k) = true := envTruthy_some k hk
  obtain ⟨names, hn⟩ := names_of_optMember "message" e m hm
  have hfr : friendly e
      = .str "Quota superata: attendi qualche secondo o usa un modello più leggero." := by
    simp [friendly, hm, isStringIncluding, h429]
  refine ⟨hfr, ?_, names, hn, ?_⟩
  · intro h
    subst h
    revert h429
    decide
  · have htr : handleSearch (some k) s (.resolved dogs dogsError) (.thrown e)
        = [ .setError "", .setIsLoading true, .setAiText "", .selectDogs,
            .generateContent k "models/gemma-3-12b-it" (enrichedPrompt s.prompt dogs),
            .setError (toStr (friendly e) ++ "\n\nDettagli:\n"
              ++ templ (stringifyNames e names)),
            .alert (toStr (alertText e)), .setAiText "", .setIsLoading false ] := by
      simp [handleSearch, hkey, hd, catchSearch_of_names e names hn]
    rw [htr, hfr]
    simp only [toStr]
    rfl

theorem quota_message_witness :
    friendly (.obj [("message", .str "[429 Too Many Requests] quota")])
      = .str "Quota superata: attendi qualche secondo o usa un modello più leggero." :=
  (quota_message "key" initial (.arr []) .null
    (.obj [("message", .str "[429 Too Many Requests] quota")])
    "[429 Too Many Requests] quota" (by decide) rfl rfl (by decide)).1

/-- C6 (as stated, refuted): the generation call throws an error with the message
"[429] quota"; the alert shows that raw message while the displayed error starts with
the fixed quota text.  For an error without message the alert shows its own fallback,
which is not the fallback placed in the displayed error. -/
theorem alert_differs_on_quota :
    handleSearch (some "key") initial (.resolved (.arr []) .null)
        (.thrown (.obj [("message", .str "[429] quota")]))
      = [ .setError "", .setIsLoading true, .setAiText "", .selectDogs,
          .generateContent "key" "models/gemma-3-12b-it" (enrichedPrompt "" (.arr [])),
          .setError "Quota superata: attendi qualche secondo o usa un modello più leggero.\n\nDettagli:\n\x7b\n  \"message\": \"[429] quota\"\n\x7d",
          .alert "[429] quota",
          .setAiText "",
          .setIsLoading false ]
      ∧ toStr (alertText (.obj [("message", .str "[429] quota")]))
          ≠ toStr (friendly (.obj [("message", .str "[429] quota")]))
      ∧ toStr (alertText (.obj [])) = "Errore durante la generazione."
      ∧ toStr (friendly (.obj [])) = "Errore sconosciuto durante la generazione." := by
  refine ⟨rfl, by decide, rfl, rfl⟩

/-- C6 (amended): for every failure of handleSearch after the credential check with an
error that is neither undefined nor null, the only alert text is the error's raw message
when that is truthy and "Errore durante la generazione." otherwise, while the short
message at the start of the displayed error is the quota text when the message is a
string holding "429" and "Errore sconosciuto durante la generazione." when the message
is falsy; the alert text equals the short message exactly when the message is truthy and
is not a string holding "429"; the result text ends empty. -/
theorem alert_text (k : String) (s : AppState) (sel : StoreOutcome) (gen : GenOutcome)
    (e : JSVal) (names : List String) (hk : k ≠ "") (hc : caught sel gen = some e)
    (hn : getOwnPropertyNames e = some names) :
    (∀ msg, Event.alert msg ∈ handleSearch (some k) s sel gen ↔ msg = toStr (alertText e))
      ∧ (truthy (member "message" e) = true → alertText e = member "message" e)
      ∧ (truthy (member "message" e) = false →
          alertText e = .str "Errore durante la generazione."
            ∧ friendly e = .str "Errore sconosciuto durante la generazione.")
      ∧ (isStringIncluding "429" (member "message" e) = true →
          alertText e = member "message" e
            ∧ friendly e
              = .str "Quota superata: attendi qualche secondo o usa un modello più leggero.")
      ∧ (truthy (member "message" e) = true →
          isStringIncluding "429" (member "message" e) = false →
          friendly e = alertText e)
      ∧ (toStr (alertText e) = toStr (friendly e)
          ↔ (truthy (member "message" e) = true
              ∧ isStringIncluding "429" (member "message" e) = false))
      ∧ (run s (handleSearch (some k) s sel gen)).error
          = toStr (friendly e) ++ "\n\nDettagli:\n" ++ templ (stringifyNames e names)
      ∧ (run s (handleSearch (some k) s sel gen)).aiText = "" := by
  obtain ⟨pre, htr, hpre⟩ := handleSearch_caught k s sel gen e hk hc
  have halertT : truthy (member "message" e) = true → alertText e = member "message" e := by
    intro ht
    simp [alertText, optMember_eq_member, jsOr, ht]
  have halertF : truthy (member "message" e) = false →
      alertText e = .str "Errore durante la generazione." := by
    intro hf
    simp [alertText, optMember_eq_member, jsOr, hf]
  have hquota : isStringIncluding "429" (member "message" e) = true →
      friendly e
        = .str "Quota superata: attendi qualche secondo o usa un modello più leggero." := by
    intro hi
    simp [friendly, optMember_eq_member, hi]
  have hplain : truthy (member "message" e) = true →
      isStringIncluding "429" (member "message" e) = false →
      friendly e = member "message" e := by
    intro ht hno
    simp [friendly, optMember_eq_member, hno, jsOr, ht]
  have hfallback : truthy (member "message" e) = false →
      friendly e = .str "Errore sconosciuto durante la generazione." := by
    intro hf
    have hno : isStringIncluding "429" (member "message" e) = false := by
      cases hi : isStringIncluding "429" (member "message" e) with
      | false => rfl
      | true =>
        obtain ⟨_, _, _, ht⟩ := isStringIncluding_429 _ hi
        rw [hf] at ht
        cases ht
    simp [friendly, optMember_eq_member, hno, jsOr, hf]
  rw [htr, catchSearch_of_names e names hn]
  refine ⟨?_, halertT, ?_, ?_, ?_, ?_, ?_, ?_⟩
  · intro msg
    rcases hpre with h | ⟨p, h⟩ <;> subst h <;> simp
  · intro hf
    exact ⟨halertF hf, hfallback hf⟩
  · intro hi
    obtain ⟨_, _, _, ht⟩ := isStringIncluding_429 _ hi
    exact ⟨halertT ht, hquota hi⟩
  · intro ht hno
    rw [halertT ht, hplain ht hno]
  · constructor
    · intro heq
      cases hi : isStringIncluding "429" (member "message" e) with
      | true =>
        exfalso
        obtain ⟨m, hm, h429, ht⟩ := isStringIncluding_429 _ hi
        rw [halertT ht, hquota hi, hm] at heq
        simp only [toStr] at heq
        subst heq
        revert h429
        decide
      | false =>
        cases ht : truthy (member "message" e) with
        | true => exact ⟨rfl, rfl⟩
        | false =>
          exfalso
          rw [halertF ht, hfallback ht] at heq
          simp only [toStr] at heq
          revert heq
          decide
    · rintro ⟨ht, hno⟩
      rw [halertT ht, hplain ht hno]
  · rcases hpre with h | ⟨p, h⟩ <;> subst h <;> rfl
  · rcases hpre with h | ⟨p, h⟩ <;> subst h <;> rfl

theorem alert_text_witness :
    Event.alert "boom" ∈ handleSearch (some "key") initial (.resolved (.arr []) .null)
        (.thrown (.obj [("message", .str "boom")]))
      ∧ (run initial (handleSearch (some "key") initial (.resolved (.arr []) .null)
          (.thrown (.obj [("message", .str "boom")])))).aiText = "" :=
  ⟨((alert_text "key" initial (.resolved (.arr []) .null)
      (.thrown (.obj [("message", .str "boom")])) (.obj [("message", .str "boom")])
      ["message"] (by decide) rfl rfl).1 "boom").2 rfl,
    (alert_text "key" initial (.resolved (.arr []) .null)
      (.thrown (.obj [("message", .str "boom")])) (.obj [("message", .str "boom")])
      ["message"] (by decide) rfl rfl).2.2.2.2.2.2.2⟩

/-- C9: with a configured credential and a successful Data Store read returning the
collection xs, the one generation request carries the fixed model and, as Prompt, the
fixed opening, the query verbatim, the fixed middle text, the JSON serialisation of the
collection and the fixed instructions; a null collection is serialised like the empty
one, as "[]", and the request is still made. -/
theorem prompt_shape (k q : String) (s : AppState) (xs : List JSVal) (dogsError : JSVal)
    (gen : GenOutcome) (hk : k ≠ "") (hd : truthy dogsError = false) :
    ∃ j, stringify (.arr xs) = some j
      ∧ (∀ a b p, Event.generateContent a b p
            ∈ handleSearch (some k) { s with prompt := q } (.resolved (.arr xs) dogsError) gen
          ↔ (a = k ∧ b = "models/gemma-3-12b-it"
              ∧ p = "Sei un esperto cinofilo. L'utente cerca: '" ++ q
                  ++ "'. Abbiamo SOLO questi cani disponibili nel rifugio: " ++ j
                  ++ ". Se uno di questi cani corrisponde alla richiesta, consigliolo con entusiasmo descrivendolo. Altrimenti dai consigli generali. Ogni cane nella lista ha un campo 'image_url'. Se consigli uno specifico cane, DEVI includere la sua foto alla fine della risposta usando la sintassi Markdown esatta: ![Nome Cane](URL_IMMAGINE)."))
      ∧ (∀ a b p, Event.generateContent a b p
            ∈ handleSearch (some k) { s with prompt := q } (.resolved .null dogsError) gen
          ↔ (a = k ∧ b = "models/gemma-3-12b-it"
              ∧ p = "Sei un esperto cinofilo. L'utente cerca: '" ++ q
                  ++ "'. Abbiamo SOLO questi cani disponibili nel rifugio: " ++ "[]"
                  ++ ". Se uno di questi cani corrisponde alla richiesta, consigliolo con entusiasmo descrivendolo. Altrimenti dai consigli generali. Ogni cane nella lista ha un campo 'image_url'. Se consigli uno specifico cane, DEVI includere la sua foto alla fine della risposta usando la sintassi Markdown esatta: ![Nome Cane](URL_IMMAGINE)."))
      ∧ stringify (.arr []) = some "[]" := by
  have hkey : envTruthy (some k) = true := envTruthy_some k hk
  have hrest : ∀ a b p, Event.generateContent a b p
      ∉ (match gen with
          | .text t => [ Event.setAiText t, Event.setError "" ]
          | .thrown e => catchSearch e) := by
    intro a b p hmem
    cases gen with
    | text t => simp at hmem
    | thrown e => exact absurd (catchSearch_no_request e _ hmem).2 (by simp [Event.isGenerationRequest])
  have hmem : ∀ (dogs : JSVal) a b p, Event.generateContent a b p
        ∈ handleSearch (some k) { s with prompt := q } (.resolved dogs dogsError) gen
      ↔ (a = k ∧ b = "models/gemma-3-12b-it" ∧ p = enrichedPrompt q dogs) := by
    intro dogs a b p
    simp only [handleSearch, hkey, hd, Bool.not_true, Bool.false_eq_true, if_false,
      Option.getD_some, List.mem_append, List.mem_cons, List.mem_singleton,
      List.not_mem_nil, or_false, false_or, Event.generateContent.injEq, reduceCtorEq]
    constructor
    · rintro (h | h)
      · exact h
      · exact absurd h (hrest a b p)
    · intro h
      exact Or.inl h
  refine ⟨wrapJSON "[" "]" "" "" (serializeItems none "" "" xs), rfl, ?_, ?_, rfl⟩
  · intro a b p
    rw [hmem]
    rfl
  · intro a b p
    rw [hmem]
    rfl

theorem prompt_shape_witness :
    ∃ j, stringify (.arr [.obj [("name", .str "Rex")]]) = some j
      ∧ Event.generateContent "key" "models/gemma-3-12b-it"
          ("Sei un esperto cinofilo. L'utente cerca: '" ++ "cane energico"
            ++ "'. Abbiamo SOLO questi cani disponibili nel rifugio: " ++ j
            ++ ". Se uno di questi cani corrisponde alla richiesta, consigliolo con entusiasmo descrivendolo. Altrimenti dai consigli generali. Ogni cane nella lista ha un campo 'image_url'. Se consigli uno specifico cane, DEVI includere la sua foto alla fine della risposta usando la sintassi Markdown esatta: ![Nome Cane](URL_IMMAGINE).")
        ∈ handleSearch (some "key") { initial with prompt := "cane energico" }
            (.resolved (.arr [.obj [("name", .str "Rex")]]) .null) (.text "x") := by
  obtain ⟨j, hj, h1, _, _⟩ :=
    prompt_shape "key" "cane energico" initial [.obj [("name", .str "Rex")]] .null (.text "x")
      (by decide) rfl
  exact ⟨j, hj, (h1 _ _ _).2 ⟨rfl, rfl, rfl⟩⟩

/-- C5 (as stated, refuted): a successful search followed by a model listing answered
with HTTP 500 leaves the result text "Rex" and a non-empty error on display together. -/
theorem result_and_error_together :
    (performAll (some "key") initial
        [ .search (.resolved (.arr []) .null) (.text "Rex"),
          .listModels (.response 500 "Internal Server Error" (.json .null)) .undefined ]).aiText
      = "Rex"
      ∧ (performAll (some "key") initial
          [ .search (.resolved (.arr []) .null) (.text "Rex"),
            .listModels (.response 500 "Internal Server Error" (.json .null)) .undefined ]).error
        = "ERRORE GOOGLE listModels: HTTP 500 Internal Server Error" := by
  exact ⟨rfl, rfl⟩

/-- C5 (amended): in every state reached from the initial state by any sequence of
query edits, handleSearch and handleSupabaseTest invocations with any outcomes, and
handleListModels invocations whose listing goes through, the displayed result and the
displayed error are never both non-empty. -/
theorem result_or_error (apiKey : Option String) (acts : List Action)
    (h : ∀ a ∈ acts, a.listingOk = true) :
    ¬ ((performAll apiKey initial acts).aiText ≠ ""
        ∧ (performAll apiKey initial acts).error ≠ "") := by
  have hinv := (performAll_exclusive apiKey acts initial h ⟨fun _ => rfl, Or.inl rfl⟩).2
  rintro ⟨h1, h2⟩
  rcases hinv with h3 | h3
  · exact h1 h3
  · exact h2 h3

theorem result_or_error_witness :
    ¬ ((performAll (some "key") initial
          [ .search (.resolved (.arr []) .null) (.text "Rex"),
            .listModels (.response 200 "OK" (.json (.obj []))) .undefined,
            .search (.resolved .null (.obj [("message", .str "boom")])) (.text "x") ]).aiText
          ≠ ""
        ∧ (performAll (some "key") initial
          [ .search (.resolved (.arr []) .null) (.text "Rex"),
            .listModels (.response 200 "OK" (.json (.obj []))) .undefined,
            .search (.resolved .null (.obj [("message", .str "boom")])) (.text "x") ]).error
          ≠ "") :=
  result_or_error (some "key")
    [ .search (.resolved (.arr []) .null) (.text "Rex"),
      .listModels (.response 200 "OK" (.json (.obj []))) .undefined,
      .search (.resolved .null (.obj [("message", .str "boom")])) (.text "x") ]
    (by decide)

/-- C8 (as stated, refuted): a model that declares the one method name "" is displayed
with the placeholder, although its methods list is declared and not empty. -/
theorem single_empty_method_placeholder :
    handleListModels (some "key")
        (.response 200 "OK" (.json (listingJS (some [⟨"models/x", some [""]⟩])))) .undefined
      = [ .fetchModels "https://generativelanguage.googleapis.com/v1/models?key=key",
          .setModelsText "models/x (no methods)",
          .setError "" ]
      ∧ ModelInfo.lineAsClaimed ⟨"models/x", some [""]⟩ = "models/x ()" := by
  exact ⟨rfl, rfl⟩

/-- C8 (amended): for every successful model-listing response the handler sets the
models display to the entries, in response order and joined with newlines, each being
the name, then in brackets the methods joined by a comma and a space, or the placeholder
"no methods" when that join is the empty string (no declared methods, an empty list, or
the single method name ""); without models the display is "Nessun modello disponibile";
the error is cleared.  When no declared method name is empty the entries are those of
the claim. -/
theorem listModels_display (k : String) (s : AppState) (status : Nat) (statusText : String)
    (ms : Option (List ModelInfo)) (typeError : JSVal) (hk : k ≠ "")
    (hs : 200 ≤ status ∧ status ≤ 299) :
    handleListModels (some k) (.response status statusText (.json (listingJS ms))) typeError
        = [ .fetchModels ("https://generativelanguage.googleapis.com/v1/models?key=" ++ k),
            .setModelsText
              (if (ms.getD []).isEmpty then "Nessun modello disponibile"
                else "\n".intercalate ((ms.getD []).map ModelInfo.line)),
            .setError "" ]
      ∧ (run s (handleListModels (some k)
            (.response status statusText (.json (listingJS ms))) typeError)).modelsText
          = (if (ms.getD []).isEmpty then "Nessun modello disponibile"
              else "\n".intercalate ((ms.getD []).map ModelInfo.line))
      ∧ (run s (handleListModels (some k)
            (.response status statusText (.json (listingJS ms))) typeError)).error = ""
      ∧ ((∀ m ∈ ms.getD [], ∀ x ∈ m.supportedGenerationMethods.getD [], x ≠ "") →
          (ms.getD []).map ModelInfo.line = (ms.getD []).map ModelInfo.lineAsClaimed) := by
  have hkey : envTruthy (some k) = true := envTruthy_some k hk
  have hout : modelsOutput ((ms.getD []).map ModelInfo.line)
      = (if (ms.getD []).isEmpty then "Nessun modello disponibile"
          else "\n".intercalate ((ms.getD []).map ModelInfo.line)) := by
    cases hl : ms.getD [] with
    | nil => rfl
    | cons m rest => simp [modelsOutput]
  have htr : handleListModels (some k)
        (.response status statusText (.json (listingJS ms))) typeError
      = [ .fetchModels ("https://generativelanguage.googleapis.com/v1/models?key=" ++ k),
          .setModelsText
            (if (ms.getD []).isEmpty then "Nessun modello disponibile"
              else "\n".intercalate ((ms.getD []).map ModelInfo.line)),
          .setError "" ] := by
    rw [← hout]
    simp [handleListModels, hkey, hs.1, hs.2, modelNames_listingJS]
  rw [htr]
  refine ⟨rfl, rfl, rfl, ?_⟩
  intro hne
  exact List.map_congr_left fun m hm => line_eq_lineAsClaimed m (hne m hm)

theorem listModels_display_witness :
    handleListModels (some "key")
        (.response 200 "OK"
          (.json (listingJS (some [⟨"models/a", some ["generateContent", "countTokens"]⟩,
            ⟨"models/b", none⟩])))) .undefined
      = [ .fetchModels "https://generativelanguage.googleapis.com/v1/models?key=key",
          .setModelsText "models/a (generateContent, countTokens)\nmodels/b (no methods)",
          .setError "" ] :=
  (listModels_display "key" initial 200 "OK"
    (some [⟨"models/a", some ["generateContent", "countTokens"]⟩, ⟨"models/b", none⟩])
    .undefined (by decide) (by decide)).1

end PetMatch
